import Mathlib

/-!
Shallow embedding of `cyber/timer/timer.cc` (Apollo Cyber RT timer): the timer task
scheduling state, the drift-compensation arithmetic of the periodic wrapped callback,
and the `Timer::Start` / `Timer::Stop` lifecycle, with C++ fixed-width integer
arithmetic made explicit (uint64 wrap-around, int64 reinterpretation).
-/

namespace Cyber

/-- The modulus of C++ `uint64_t` arithmetic, 2^64. -/
def U64 : ℕ := 18446744073709551616

/-- 2^63: the first uint64 bit pattern that is negative when read as `int64_t`. -/
def I64 : ℕ := 9223372036854775808

/-- uint64 subtraction `a - b` with wrap-around modulo 2^64. -/
def u64sub (a b : ℕ) : ℕ := (a % U64 + (U64 - b % U64)) % U64

/-- Reinterpret a uint64 bit pattern as the `int64_t` value it encodes. -/
def toInt64 (n : ℕ) : ℤ :=
  if n % U64 < I64 then ((n % U64 : ℕ) : ℤ) else (n % U64 : ℤ) - (U64 : ℤ)

/-- The uint64 bit pattern of an `int64_t` value (C++ integral conversion). -/
def toUInt64 (x : ℤ) : ℕ := (x % (U64 : ℤ)).toNat

/-- `int64 += uint64` as C++ computes it: both sides taken modulo 2^64, added, and the
result read back as `int64_t`. -/
def i64addU64 (a : ℤ) (b : ℕ) : ℤ := toInt64 (toUInt64 a + b)

/-- `llround(static_cast<double>(n) / 1e6)` for a nonnegative nanosecond count
(timer.cc lines 89-94): round to the nearest millisecond, halves away from zero.
The double conversion is exact for every value below 2^53 ns (about 104 days), so the
embedding uses the exact rounding. -/
def roundNsToMs (n : ℕ) : ℕ := (n + 500000) / 1000000

/-- `llround(static_cast<double>(x) / 1e6)` for a signed nanosecond error
(timer.cc lines 113-117): round to the nearest millisecond, halves away from zero. -/
def roundNsToMsInt (x : ℤ) : ℤ :=
  if 0 ≤ x then (((x.toNat + 500000) / 1000000 : ℕ) : ℤ)
  else -((((-x).toNat + 500000) / 1000000 : ℕ) : ℤ)

/-- The scheduling state of a `TimerTask`. The callback closure and the mutex are
not data; they are modelled by the step functions below. -/
structure TimerTask where
  interval_ms : ℕ
  next_fire_duration_ms : ℕ
  accumulated_error_ns : ℤ
  last_execute_time_ns : ℕ
deriving DecidableEq

/-- Modelled from the spec: the `TimerTask` constructor lives in `timer.h`, which is not
under src/; per section 4.1 of the spec construction sets
`interval_ms = next_fire_offset_ms = period_ms`, `last_execute_time_ns = 0`,
`accumulated_error_ns = 0`. `Timer::InitTimerTask` (timer.cc lines 63-65) performs the
two explicit assignments; the two zeroes are the header's field initializers. -/
def TimerTask.init (period : ℕ) : TimerTask :=
  { interval_ms := period, next_fire_duration_ms := period,
    accumulated_error_ns := 0, last_execute_time_ns := 0 }

/-- `Timer::InitTimerTask` (timer.cc lines 51-65) restricted to its scheduling-state
effect: period validation and construction of the fresh task. `none` exactly when the
function returns `false` (and leaves `task_` untouched). -/
def initTimerTask (maxIntervalMs period : ℕ) : Option TimerTask :=
  if period = 0 then none
  else if maxIntervalMs ≤ period then none
  else some (TimerTask.init period)

/-- Steps 5-6 of the periodic wrapped callback (timer.cc lines 95-107): the
`accumulated_error_ns` update. The measured gap `start - last_execute_time_ns` and the
product `interval_ms * 1000000` are uint64 arithmetic; the `+=` into the int64
accumulator wraps modulo 2^64. -/
def periodicAccUpdate (start : ℕ) (t : TimerTask) : ℤ :=
  if t.last_execute_time_ns = 0 then t.accumulated_error_ns
  else i64addU64 t.accumulated_error_ns
    (u64sub (u64sub start t.last_execute_time_ns) (t.interval_ms * 1000000 % U64))

/-- Step 7 of the periodic wrapped callback (timer.cc lines 109-127): the choice of
`next_fire_duration_ms`, given the rounded execution time, the interval and the already
updated error accumulator. The branch guard is the int64 reinterpretation of the uint64
difference, exactly as the `static_cast<int64_t>` in the source. -/
def periodicNextFire (resolutionMs executeTimeMs intervalMs : ℕ) (acc : ℤ) : ℕ :=
  if intervalMs ≤ executeTimeMs then resolutionMs % U64
  else
    let accumulatedErrorMs := roundNsToMsInt acc
    if accumulatedErrorMs ≤ toInt64 (u64sub (u64sub intervalMs executeTimeMs) resolutionMs)
    then u64sub (u64sub intervalMs executeTimeMs) (toUInt64 accumulatedErrorMs)
    else resolutionMs % U64

/-- One execution of the periodic wrapped callback body on a live task
(timer.cc lines 84-134), given the two clock readings `start` and `fin` taken around
the user callback. -/
def periodicStep (resolutionMs start fin : ℕ) (t : TimerTask) : TimerTask :=
  let executeTimeMs := roundNsToMs (u64sub fin start)
  let acc := periodicAccUpdate start t
  { t with accumulated_error_ns := acc,
           last_execute_time_ns := start % U64,
           next_fire_duration_ms := periodicNextFire resolutionMs executeTimeMs t.interval_ms acc }

/-- The periodic wrapped callback (timer.cc lines 79-135) as one scheduler dispatch:
the input is the result of `task_weak_ptr.lock()`; the output is the surviving task
state, whether the user callback ran, and whether the task was resubmitted via
`TimingWheel::AddTask`. -/
def periodicCallback (resolutionMs start fin : ℕ) :
    Option TimerTask → Option TimerTask × Bool × Bool
  | none => (none, false, false)
  | some t => (some (periodicStep resolutionMs start fin t), true, true)

/-- The oneshot wrapped callback (timer.cc lines 70-76) as one scheduler dispatch:
on a live task it locks, runs the user callback and touches nothing else; on a dead
weak reference it does nothing. It never resubmits. -/
def oneshotCallback : Option TimerTask → Option TimerTask × Bool × Bool
  | none => (none, false, false)
  | some t => (some t, true, false)

/-- Observable actions of `Timer::Start` and `Timer::Stop` toward the task and the
timing wheel. -/
inductive Event where
  | taskCreated
  | submitted
  | teardown
deriving DecidableEq

/-- The fields of `TimerOption` that the lifecycle model needs. -/
structure TimerOption where
  period : ℕ
  oneshot : Bool
deriving DecidableEq

/-- The lifecycle state of a `Timer` handle: the atomic `started_` flag and the owning
`task_` reference. -/
structure Handle where
  started : Bool
  task : Option TimerTask
deriving DecidableEq

/-- `Timer::Start` (timer.cc lines 140-154): gated on reality mode, then an atomic
`started_.exchange(true)`; only the caller that observed `false` runs `InitTimerTask`
and, on success, submits the task to the timing wheel. Nothing resets `started_` when
validation fails. -/
def start (realityMode : Bool) (maxIntervalMs : ℕ) (opt : TimerOption) (h : Handle) :
    Handle × List Event :=
  if realityMode = false then (h, [])
  else if h.started then (h, [])
  else
    match initTimerTask maxIntervalMs opt.period with
    | none => ({ h with started := true }, [])
    | some t => ({ started := true, task := some t }, [Event.taskCreated, Event.submitted])

/-- `Timer::Stop` (timer.cc lines 156-166): `started_.exchange(false)` always runs; the
teardown (holding the task mutex while resetting `task_`) runs only when the exchange
read `true` and `task_` is non-null. -/
def stop (h : Handle) : Handle × List Event :=
  if h.started ∧ h.task.isSome then ({ started := false, task := none }, [Event.teardown])
  else ({ h with started := false }, [])

/-- A run of the external scheduler against one task: `pending` counts submissions held
by the timing wheel; each dispatch consumes one submission, invokes the wrapped
callback on the current weak-reference resolution, and re-queues a submission when the
callback resubmitted. Returns how many dispatches ran the user callback. -/
def schedRun (step : Option TimerTask → Option TimerTask × Bool × Bool) :
    ℕ → Option TimerTask → ℕ → ℕ
  | 0, _, _ => 0
  | _ + 1, _, 0 => 0
  | fuel + 1, task, pending + 1 =>
    let r := step task
    (if r.2.1 then 1 else 0) + schedRun step fuel r.1 (pending + if r.2.2 then 1 else 0)

/-! Arithmetic facts about the fixed-width helpers. -/

lemma u64sub_of_le (a b : ℕ) (hba : b ≤ a) (ha : a < U64) : u64sub a b = a - b := by
  simp only [u64sub, U64] at *
  omega

lemma toInt64_bounds (n : ℕ) : -(I64 : ℤ) ≤ toInt64 n ∧ toInt64 n < I64 := by
  simp only [toInt64, U64, I64]
  split_ifs <;> omega

lemma toInt64_u64sub (a b : ℕ) (h1 : -(I64 : ℤ) ≤ (a : ℤ) - b) (h2 : (a : ℤ) - b < I64) :
    toInt64 (u64sub a b) = (a : ℤ) - b := by
  simp only [toInt64, u64sub, U64, I64] at *
  split_ifs <;> omega

lemma u64sub_toUInt64 (a : ℕ) (e : ℤ) (h1 : 0 ≤ (a : ℤ) - e) (h2 : (a : ℤ) - e < U64) :
    ((u64sub a (toUInt64 e)) : ℤ) = (a : ℤ) - e := by
  simp only [u64sub, toUInt64, U64] at *
  omega

lemma roundNsToMsInt_bounds (x : ℤ) (h1 : -(I64 : ℤ) ≤ x) (h2 : x < I64) :
    -(10000000000000 : ℤ) < roundNsToMsInt x ∧ roundNsToMsInt x < 10000000000000 := by
  simp only [roundNsToMsInt, I64] at *
  split_ifs <;> omega

lemma periodicAccUpdate_bounds (start : ℕ) (t : TimerTask)
    (h1 : -(I64 : ℤ) ≤ t.accumulated_error_ns) (h2 : t.accumulated_error_ns < I64) :
    -(I64 : ℤ) ≤ periodicAccUpdate start t ∧ periodicAccUpdate start t < I64 := by
  simp only [periodicAccUpdate]
  split_ifs
  · exact ⟨h1, h2⟩
  · simp only [i64addU64]
    exact toInt64_bounds _

lemma periodicAccUpdate_of_ne (start : ℕ) (t : TimerTask)
    (hne : t.last_execute_time_ns ≠ 0)
    (hacc1 : -(I64 : ℤ) ≤ t.accumulated_error_ns) (hacc2 : t.accumulated_error_ns < I64)
    (hsum1 : -(I64 : ℤ) ≤ t.accumulated_error_ns +
      ((start : ℤ) - t.last_execute_time_ns - t.interval_ms * 1000000))
    (hsum2 : t.accumulated_error_ns +
      ((start : ℤ) - t.last_execute_time_ns - t.interval_ms * 1000000) < I64) :
    periodicAccUpdate start t = t.accumulated_error_ns +
      ((start : ℤ) - t.last_execute_time_ns - t.interval_ms * 1000000) := by
  simp only [periodicAccUpdate, i64addU64, toInt64, toUInt64, u64sub, U64, I64] at *
  rw [if_neg hne]
  split_ifs <;> omega

/-- Projections of one periodic step. -/
lemma periodicStep_fields (resolutionMs start fin : ℕ) (t : TimerTask) :
    (periodicStep resolutionMs start fin t).accumulated_error_ns = periodicAccUpdate start t ∧
    (periodicStep resolutionMs start fin t).last_execute_time_ns = start % U64 ∧
    (periodicStep resolutionMs start fin t).next_fire_duration_ms =
      periodicNextFire resolutionMs (roundNsToMs (u64sub fin start)) t.interval_ms
        (periodicAccUpdate start t) ∧
    (periodicStep resolutionMs start fin t).interval_ms = t.interval_ms := by
  simp only [periodicStep]
  exact ⟨trivial, trivial, trivial, trivial⟩

lemma periodicNextFire_overrun (resolutionMs executeTimeMs intervalMs : ℕ) (acc : ℤ)
    (hres : resolutionMs < I64) (hE : intervalMs ≤ executeTimeMs) :
    periodicNextFire resolutionMs executeTimeMs intervalMs acc = resolutionMs := by
  simp only [periodicNextFire, U64, I64] at *
  rw [if_pos hE]
  omega

lemma toInt64_guard (resolutionMs executeTimeMs intervalMs : ℕ)
    (hres : resolutionMs < I64) (hI : intervalMs < I64) (hE : executeTimeMs < intervalMs) :
    toInt64 (u64sub (u64sub intervalMs executeTimeMs) resolutionMs) =
      (intervalMs : ℤ) - executeTimeMs - resolutionMs := by
  have hIU : intervalMs < U64 := by simp only [U64, I64] at *; omega
  rw [u64sub_of_le _ _ (le_of_lt hE) hIU,
    toInt64_u64sub (intervalMs - executeTimeMs) resolutionMs
      (by simp only [I64] at *; omega) (by simp only [I64] at *; omega)]
  omega

lemma periodicNextFire_corrected (resolutionMs executeTimeMs intervalMs : ℕ) (acc : ℤ)
    (hres : resolutionMs < I64) (hI : intervalMs < I64) (hE : executeTimeMs < intervalMs)
    (hacc1 : -(I64 : ℤ) ≤ acc) (hacc2 : acc < I64)
    (hcond : roundNsToMsInt acc ≤ (intervalMs : ℤ) - executeTimeMs - resolutionMs) :
    ((periodicNextFire resolutionMs executeTimeMs intervalMs acc : ℕ) : ℤ) =
      (intervalMs : ℤ) - executeTimeMs - roundNsToMsInt acc := by
  have hrb := roundNsToMsInt_bounds acc hacc1 hacc2
  have hIU : intervalMs < U64 := by simp only [U64, I64] at *; omega
  have hsub : u64sub intervalMs executeTimeMs = intervalMs - executeTimeMs :=
    u64sub_of_le _ _ (le_of_lt hE) hIU
  simp only [periodicNextFire, toInt64_guard resolutionMs executeTimeMs intervalMs hres hI hE]
  rw [if_neg (not_le.mpr hE), if_pos hcond, hsub,
    u64sub_toUInt64 (intervalMs - executeTimeMs) (roundNsToMsInt acc)
      (by simp only [I64] at *; omega) (by simp only [U64, I64] at *; omega)]
  omega

lemma periodicNextFire_fallback (resolutionMs executeTimeMs intervalMs : ℕ) (acc : ℤ)
    (hres : resolutionMs < I64) (hI : intervalMs < I64) (hE : executeTimeMs < intervalMs)
    (hcond : (intervalMs : ℤ) - executeTimeMs - resolutionMs < roundNsToMsInt acc) :
    periodicNextFire resolutionMs executeTimeMs intervalMs acc = resolutionMs := by
  simp only [periodicNextFire, toInt64_guard resolutionMs executeTimeMs intervalMs hres hI hE]
  rw [if_neg (not_le.mpr hE), if_neg (not_le.mpr hcond)]
  simp only [U64, I64] at *
  omega

lemma periodicNextFire_ge (resolutionMs executeTimeMs intervalMs : ℕ) (acc : ℤ)
    (hres : resolutionMs < I64) (hI : intervalMs < I64)
    (hacc1 : -(I64 : ℤ) ≤ acc) (hacc2 : acc < I64) :
    resolutionMs ≤ periodicNextFire resolutionMs executeTimeMs intervalMs acc := by
  rcases le_or_lt intervalMs executeTimeMs with hE | hE
  · rw [periodicNextFire_overrun resolutionMs executeTimeMs intervalMs acc hres hE]
  · rcases le_or_lt (roundNsToMsInt acc) ((intervalMs : ℤ) - executeTimeMs - resolutionMs)
      with hcond | hcond
    · have h := periodicNextFire_corrected resolutionMs executeTimeMs intervalMs acc
        hres hI hE hacc1 hacc2 hcond
      omega
    · rw [periodicNextFire_fallback resolutionMs executeTimeMs intervalMs acc hres hI hE hcond]

lemma initTimerTask_isNone (maxIntervalMs period : ℕ) :
    initTimerTask maxIntervalMs period = none ↔ period = 0 ∨ maxIntervalMs ≤ period := by
  simp only [initTimerTask]
  split_ifs with h1 h2 <;> simp_all

lemma initTimerTask_isSome (maxIntervalMs period : ℕ) (h1 : 0 < period)
    (h2 : period < maxIntervalMs) :
    initTimerTask maxIntervalMs period = some (TimerTask.init period) := by
  simp only [initTimerTask]
  rw [if_neg (by omega), if_neg (by omega)]

lemma schedRun_pending_zero (step : Option TimerTask → Option TimerTask × Bool × Bool)
    (fuel : ℕ) (task : Option TimerTask) : schedRun step fuel task 0 = 0 := by
  cases fuel <;> rfl

/-- Claim C3: whenever the periodic wrapped callback resolves its weak reference, the
next firing offset is decided exactly as specified. With
`execute_time_ms = round((fin - start) / 1e6)`: if `execute_time_ms ≥ interval_ms` the
offset becomes the wheel resolution and `accumulated_error_ns` is left at its
step-5 value (not zeroed). Otherwise, with
`accumulated_error_ms = round(accumulated_error_ns / 1e6)`, the signed guard
`interval_ms - execute_time_ms - resolution ≥ accumulated_error_ms` selects the
corrected offset `interval_ms - execute_time_ms - accumulated_error_ms`, and the
fallback is the wheel resolution. The hypotheses keep the int64 reinterpretations
overflow-free (the repository constants are far below 2^63). -/
theorem periodic_next_fire_decision (resolutionMs start fin : ℕ) (t : TimerTask)
    (hres : resolutionMs < I64) (hI : t.interval_ms < I64)
    (hacc1 : -(I64 : ℤ) ≤ t.accumulated_error_ns) (hacc2 : t.accumulated_error_ns < I64) :
    (periodicStep resolutionMs start fin t).accumulated_error_ns = periodicAccUpdate start t ∧
    (t.interval_ms ≤ roundNsToMs (u64sub fin start) →
      (periodicStep resolutionMs start fin t).next_fire_duration_ms = resolutionMs) ∧
    (roundNsToMs (u64sub fin start) < t.interval_ms →
      (roundNsToMsInt (periodicAccUpdate start t) ≤
          (t.interval_ms : ℤ) - roundNsToMs (u64sub fin start) - resolutionMs →
        ((periodicStep resolutionMs start fin t).next_fire_duration_ms : ℤ) =
          (t.interval_ms : ℤ) - roundNsToMs (u64sub fin start) -
            roundNsToMsInt (periodicAccUpdate start t)) ∧
      ((t.interval_ms : ℤ) - roundNsToMs (u64sub fin start) - resolutionMs <
          roundNsToMsInt (periodicAccUpdate start t) →
        (periodicStep resolutionMs start fin t).next_fire_duration_ms = resolutionMs)) := by
  obtain ⟨hA, hL, hN, hInt⟩ := periodicStep_fields resolutionMs start fin t
  have hb := periodicAccUpdate_bounds start t hacc1 hacc2
  refine ⟨hA, fun hE => ?_, fun hE => ⟨fun hc => ?_, fun hc => ?_⟩⟩
  · rw [hN]
    exact periodicNextFire_overrun _ _ _ _ hres hE
  · rw [hN]
    exact periodicNextFire_corrected _ _ _ _ hres hI hE hb.1 hb.2 hc
  · rw [hN]
    exact periodicNextFire_fallback _ _ _ _ hres hI hE hc

/-- Witness for the claim C3 theorem: resolution 2 ms, interval 100 ms, first firing
with a 20 ms callback execution; the corrected branch yields offset 100 - 20 - 0. -/
theorem periodic_next_fire_decision_witness :
    ((periodicStep 2 1000000000 1020000000 (TimerTask.init 100)).next_fire_duration_ms : ℤ) =
      ((TimerTask.init 100).interval_ms : ℤ) - roundNsToMs (u64sub 1020000000 1000000000) -
        roundNsToMsInt (periodicAccUpdate 1000000000 (TimerTask.init 100)) :=
  ((periodic_next_fire_decision 2 1000000000 1020000000 (TimerTask.init 100)
      (by decide) (by decide) (by decide) (by decide)).2.2 (by decide)).1 (by decide)

/-- Claim C4: on a resolving invocation of the periodic wrapped callback, a zero
`last_execute_time_ns` (first firing) only records the start timestamp and leaves the
accumulator untouched (in particular it stays 0 when it was 0); otherwise the
accumulator changes by exactly the signed quantity
`(start - last_execute_time_ns) - interval_ms * 1000000`, possibly negative, and
`last_execute_time_ns` is then set to `start`. The hypotheses state that the true
signed sum fits in int64, which is what makes the wrapped 64-bit computation coincide
with the mathematical one. -/
theorem periodic_error_accumulation (resolutionMs start fin : ℕ) (t : TimerTask)
    (hstart : start < U64)
    (hacc1 : -(I64 : ℤ) ≤ t.accumulated_error_ns) (hacc2 : t.accumulated_error_ns < I64)
    (hsum1 : -(I64 : ℤ) ≤ t.accumulated_error_ns +
      ((start : ℤ) - t.last_execute_time_ns - t.interval_ms * 1000000))
    (hsum2 : t.accumulated_error_ns +
      ((start : ℤ) - t.last_execute_time_ns - t.interval_ms * 1000000) < I64) :
    (t.last_execute_time_ns = 0 →
      (periodicStep resolutionMs start fin t).last_execute_time_ns = start ∧
      (periodicStep resolutionMs start fin t).accumulated_error_ns =
        t.accumulated_error_ns) ∧
    (t.last_execute_time_ns ≠ 0 →
      (periodicStep resolutionMs start fin t).accumulated_error_ns =
        t.accumulated_error_ns +
          ((start : ℤ) - t.last_execute_time_ns - t.interval_ms * 1000000) ∧
      (periodicStep resolutionMs start fin t).last_execute_time_ns = start) := by
  obtain ⟨hA, hL, hN, hInt⟩ := periodicStep_fields resolutionMs start fin t
  have hstart' : start % U64 = start := by simp only [U64] at *; omega
  constructor
  · intro h0
    refine ⟨by rw [hL, hstart'], ?_⟩
    rw [hA]
    simp only [periodicAccUpdate, if_pos h0]
  · intro hne
    exact ⟨by rw [hA]; exact periodicAccUpdate_of_ne start t hne hacc1 hacc2 hsum1 hsum2,
      by rw [hL, hstart']⟩

/-- Witness for the claim C4 theorem: interval 100 ms, accumulator 5 ms, previous start
at 1 s, current start at 2 s: the accumulator gains 1000 ms - 100 ms of error. -/
theorem periodic_error_accumulation_witness :
    (periodicStep 2 2000000000 2010000000
        { interval_ms := 100, next_fire_duration_ms := 100,
          accumulated_error_ns := 5000000, last_execute_time_ns := 1000000000
          }).accumulated_error_ns =
      (5000000 : ℤ) + ((2000000000 : ℤ) - (1000000000 : ℕ) - (100 : ℕ) * 1000000 ) ∧
    (periodicStep 2 2000000000 2010000000
        { interval_ms := 100, next_fire_duration_ms := 100,
          accumulated_error_ns := 5000000, last_execute_time_ns := 1000000000
          }).last_execute_time_ns = 2000000000 :=
  (periodic_error_accumulation 2 2000000000 2010000000
      { interval_ms := 100, next_fire_duration_ms := 100,
        accumulated_error_ns := 5000000, last_execute_time_ns := 1000000000 }
      (by decide) (by decide) (by decide) (by decide) (by decide)).2 (by decide)

/-- Claim C5 is refuted at task creation: with the upstream wheel constants
(resolution 2 ms, maximum interval 65536 ms) the period 1 ms passes validation, yet the
freshly created task has `next_fire_duration_ms = 1`, strictly below the wheel
resolution — `InitTimerTask` copies the period without clamping it. -/
theorem next_fire_resolution_counterexample :
    (0 < 1 ∧ 1 < 65536) ∧
    initTimerTask 65536 1 = some (TimerTask.init 1) ∧
    (TimerTask.init 1).next_fire_duration_ms < 2 := by decide

/-- Claim C5 amended: after every execution of the periodic wrapped callback the next
firing offset is at least the wheel resolution; immediately after creation the offset
equals the configured period, so at creation the invariant holds only for periods of at
least the wheel resolution. -/
theorem next_fire_at_least_resolution (resolutionMs start fin p : ℕ) (t : TimerTask)
    (hres : resolutionMs < I64) (hI : t.interval_ms < I64)
    (hacc1 : -(I64 : ℤ) ≤ t.accumulated_error_ns) (hacc2 : t.accumulated_error_ns < I64) :
    resolutionMs ≤ (periodicStep resolutionMs start fin t).next_fire_duration_ms ∧
    (TimerTask.init p).next_fire_duration_ms = p := by
  obtain ⟨hA, hL, hN, hInt⟩ := periodicStep_fields resolutionMs start fin t
  have hb := periodicAccUpdate_bounds start t hacc1 hacc2
  exact ⟨by rw [hN]; exact periodicNextFire_ge _ _ _ _ hres hI hb.1 hb.2, rfl⟩

/-- Witness for the amended claim C5 theorem: resolution 2 ms, interval 50 ms, 30 ms of
callback execution. -/
theorem next_fire_at_least_resolution_witness :
    2 ≤ (periodicStep 2 5000000000 5030000000 (TimerTask.init 50)).next_fire_duration_ms ∧
    (TimerTask.init 50).next_fire_duration_ms = 50 :=
  next_fire_at_least_resolution 2 5000000000 5030000000 50 (TimerTask.init 50)
    (by decide) (by decide) (by decide) (by decide)

/-- Claim C6: `InitTimerTask` fails exactly when the period is 0 or at least the
maximum interval (a locally reported error, the function just returns `false`); on
success the fresh task carries `interval_ms = next_fire_duration_ms = period`,
`last_execute_time_ns = 0` and `accumulated_error_ns = 0`. -/
theorem initTimerTask_spec (maxIntervalMs period : ℕ) :
    (initTimerTask maxIntervalMs period = none ↔ period = 0 ∨ maxIntervalMs ≤ period) ∧
    (0 < period → period < maxIntervalMs →
      initTimerTask maxIntervalMs period =
        some { interval_ms := period, next_fire_duration_ms := period,
               accumulated_error_ns := 0, last_execute_time_ns := 0 }) :=
  ⟨initTimerTask_isNone maxIntervalMs period,
    fun h1 h2 => initTimerTask_isSome maxIntervalMs period h1 h2⟩

/-- Witness for the claim C6 theorem at the upstream maximum interval and period
100 ms. -/
theorem initTimerTask_spec_witness :
    initTimerTask 65536 100 =
      some { interval_ms := 100, next_fire_duration_ms := 100,
             accumulated_error_ns := 0, last_execute_time_ns := 0 } :=
  (initTimerTask_spec 65536 100).2 (by decide) (by decide)

/-- Claim C7: a oneshot dispatch on a live task performs only the liveness check, the
lock and the synchronous user callback: the task state comes back bit-identical
(`interval_ms`, `next_fire_duration_ms`, `accumulated_error_ns`,
`last_execute_time_ns` all untouched) and no resubmission is made; consequently, in a
scheduler run that starts from the single submission `Start()` made and dispatches each
pending submission once, the user callback fires exactly once. -/
theorem oneshot_fires_exactly_once (t : TimerTask) (fuel : ℕ) (hfuel : 1 ≤ fuel) :
    oneshotCallback (some t) = (some t, true, false) ∧
    schedRun oneshotCallback fuel (some t) 1 = 1 := by
  obtain ⟨f, rfl⟩ : ∃ f, fuel = f + 1 := ⟨fuel - 1, by omega⟩
  refine ⟨rfl, ?_⟩
  have h1 : schedRun oneshotCallback (f + 1) (some t) 1 =
      (if true then 1 else 0) +
        schedRun oneshotCallback f (some t) (0 + if false then 1 else 0) := rfl
  rw [h1]
  simp [schedRun_pending_zero]

/-- Witness for the claim C7 theorem with one unit of scheduler fuel. -/
theorem oneshot_fires_exactly_once_witness :
    oneshotCallback (some (TimerTask.init 10)) = (some (TimerTask.init 10), true, false) ∧
    schedRun oneshotCallback 1 (some (TimerTask.init 10)) 1 = 1 :=
  oneshot_fires_exactly_once (TimerTask.init 10) 1 (by decide)

/-- Claim C8: when the weak reference fails to resolve (the task was stopped and
released), both wrapped callbacks do nothing: the user callback does not run, no task
state exists to be modified, nothing is resubmitted, and the invocation is an ordinary
silent return rather than an error. -/
theorem dead_reference_noop (resolutionMs start fin : ℕ) :
    oneshotCallback none = (none, false, false) ∧
    periodicCallback resolutionMs start fin none = (none, false, false) :=
  ⟨rfl, rfl⟩

/-- Claim C1 is refuted: in reality mode, `Start()` on an idle handle with the invalid
period 0 leaves `started_ = true` — the flag set by `started_.exchange(true)` is never
rolled back on validation failure — so a retry with the corrected period 100 returns
immediately and submits nothing. -/
theorem start_rollback_counterexample :
    start true 65536 { period := 0, oneshot := false } { started := false, task := none } =
      ({ started := true, task := none }, []) ∧
    start true 65536 { period := 100, oneshot := false } { started := true, task := none } =
      ({ started := true, task := none }, []) := by decide

/-- Claim C1 amended: if `Start()` is called in reality mode on an idle handle and the
configured period is invalid, the failure is local — no task is created and nothing is
submitted — but `started` remains `true` rather than rolling back, so a subsequent
`Start()`, even with a corrected configuration, returns immediately and never starts
the timer. -/
theorem start_invalid_period_sticks (maxIntervalMs : ℕ) (opt opt2 : TimerOption)
    (h : Handle) (hidle : h.started = false)
    (hbad : opt.period = 0 ∨ maxIntervalMs ≤ opt.period) :
    start true maxIntervalMs opt h = ({ started := true, task := h.task }, []) ∧
    start true maxIntervalMs opt2 { started := true, task := h.task } =
      ({ started := true, task := h.task }, []) := by
  have hnone := (initTimerTask_isNone maxIntervalMs opt.period).mpr hbad
  constructor
  · unfold start
    rw [if_neg (by decide), if_neg (by simp [hidle]), hnone]
  · unfold start
    rw [if_neg (by decide), if_pos rfl]

/-- Witness for the amended claim C1 theorem: period 0 rejected, then a retry with
period 100 on the handle left behind. -/
theorem start_invalid_period_sticks_witness :
    start true 65536 { period := 0, oneshot := true } { started := false, task := none } =
      ({ started := true, task := none }, []) ∧
    start true 65536 { period := 100, oneshot := true } { started := true, task := none } =
      ({ started := true, task := none }, []) :=
  start_invalid_period_sticks 65536 { period := 0, oneshot := true }
    { period := 100, oneshot := true } { started := false, task := none } rfl (Or.inl rfl)

/-- Claim C2 is refuted: after `Stop()` on a started handle, `started_` is back at
`false`, so the very next `Start()` in reality mode creates a fresh task and submits it
to the timing wheel — the handle is restartable, the Stopped state is not terminal. -/
theorem stop_terminal_counterexample :
    stop { started := true, task := some (TimerTask.init 100) } =
      ({ started := false, task := none }, [Event.teardown]) ∧
    start true 65536 { period := 100, oneshot := false } { started := false, task := none } =
      ({ started := true, task := some (TimerTask.init 100) },
        [Event.taskCreated, Event.submitted]) := by decide

/-- Claim C2 amended: `Stop()` on a started handle tears the task down and resets
`started` to `false`; the resulting state is the idle state, from which a `Start()` in
reality mode with a valid period creates and submits a new task — no fresh handle is
needed to run again. -/
theorem stop_then_start_restarts (maxIntervalMs : ℕ) (opt : TimerOption) (t : TimerTask)
    (hp1 : 0 < opt.period) (hp2 : opt.period < maxIntervalMs) :
    stop { started := true, task := some t } =
      ({ started := false, task := none }, [Event.teardown]) ∧
    start true maxIntervalMs opt { started := false, task := none } =
      ({ started := true, task := some (TimerTask.init opt.period) },
        [Event.taskCreated, Event.submitted]) := by
  constructor
  · unfold stop
    rw [if_pos ⟨rfl, rfl⟩]
  · unfold start
    rw [if_neg (by decide), if_neg (by decide), initTimerTask_isSome _ _ hp1 hp2]

/-- Witness for the amended claim C2 theorem at period 100 ms. -/
theorem stop_then_start_restarts_witness :
    stop { started := true, task := some (TimerTask.init 7) } =
      ({ started := false, task := none }, [Event.teardown]) ∧
    start true 65536 { period := 100, oneshot := false } { started := false, task := none } =
      ({ started := true, task := some (TimerTask.init 100) },
        [Event.taskCreated, Event.submitted]) :=
  stop_then_start_restarts 65536 { period := 100, oneshot := false } (TimerTask.init 7)
    (by decide) (by decide)

/-- Claim C9: `Start()` and `Stop()` are idempotent. From an idle handle, the first
`Start()` (reality mode, valid period) performs exactly one task creation and one
submission; the second `Start()` observes `started_` already `true`, changes nothing
and emits nothing. The first `Stop()` on a started handle performs exactly one
teardown; the second finds `task_` empty and is a pure no-op. -/
theorem start_stop_idempotent (maxIntervalMs : ℕ) (opt : TimerOption) (h : Handle)
    (t : TimerTask) (hidle : h.started = false) (hp1 : 0 < opt.period)
    (hp2 : opt.period < maxIntervalMs) :
    start true maxIntervalMs opt h =
      ({ started := true, task := some (TimerTask.init opt.period) },
        [Event.taskCreated, Event.submitted]) ∧
    start true maxIntervalMs opt
        { started := true, task := some (TimerTask.init opt.period) } =
      ({ started := true, task := some (TimerTask.init opt.period) }, []) ∧
    stop { started := true, task := some t } =
      ({ started := false, task := none }, [Event.teardown]) ∧
    stop { started := false, task := none } = ({ started := false, task := none }, []) := by
  refine ⟨?_, ?_, ?_, ?_⟩
  · unfold start
    rw [if_neg (by decide), if_neg (by simp [hidle]), initTimerTask_isSome _ _ hp1 hp2]
  · unfold start
    rw [if_neg (by decide), if_pos rfl]
  · unfold stop
    rw [if_pos ⟨rfl, rfl⟩]
  · unfold stop
    rw [if_neg (by simp)]

/-- Witness for the claim C9 theorem at period 100 ms. -/
theorem start_stop_idempotent_witness :
    start true 65536 { period := 100, oneshot := false } { started := false, task := none } =
      ({ started := true, task := some (TimerTask.init 100) },
        [Event.taskCreated, Event.submitted]) ∧
    start true 65536 { period := 100, oneshot := false }
        { started := true, task := some (TimerTask.init 100) } =
      ({ started := true, task := some (TimerTask.init 100) }, []) ∧
    stop { started := true, task := some (TimerTask.init 100) } =
      ({ started := false, task := none }, [Event.teardown]) ∧
    stop { started := false, task := none } = ({ started := false, task := none }, []) :=
  start_stop_idempotent 65536 { period := 100, oneshot := false }
    { started := false, task := none } (TimerTask.init 100) rfl (by decide) (by decide)

end Cyber
